import Mathlib

/-!
Verification of the request-execution and caching core of the kovaaks-api
client library (src/utils/api.ts and src/utils/cache.ts), shallowly embedded
in Lean 4.

Conventions of the embedding:
* JavaScript timestamps (Date.now(), in milliseconds) are modelled as Int.
* Optional / possibly-absent fields are modelled as Option.
* The JavaScript Map is modelled as an association list with unique keys;
  setKey replaces an existing binding in place and eraseKey removes it.
* Promises settle deterministically; a promise is identified by a Nat id, so
  "two callers share the same promise" becomes equality of ids, and the
  producer-invocation count is threaded through the state explicitly (the
  instrumentation the spec's test scenarios describe).
* Retry delays use exact rational arithmetic; Math.random() becomes an
  explicit parameter rand with 0 <= rand (< 1).
-/

/-- Tests whether the first character list is an initial segment of the
second. -/
def headMatches : List Char → List Char → Bool
  | [], _ => true
  | _ :: _, [] => false
  | a :: as, b :: bs => a == b && headMatches as bs

/-- Tests whether pat occurs contiguously somewhere in s. -/
def occursIn (pat : List Char) : List Char → Bool
  | [] => headMatches pat []
  | c :: rest => headMatches pat (c :: rest) || occursIn pat rest

/-- The substring test used for message matching, mirroring
String.prototype.includes: true iff pat occurs contiguously in s. -/
def strContains (s pat : String) : Bool :=
  occursIn pat.toList s.toList

/-- JavaScript Map.set on an association list: replace the binding for k if
one exists, otherwise append a fresh binding. -/
def setKey (k : String) (v : α) : List (String × α) → List (String × α)
  | [] => [(k, v)]
  | (k', v') :: rest =>
    if k' = k then (k, v) :: rest else (k', v') :: setKey k v rest

/-- JavaScript Map.delete on an association list: remove the binding for k. -/
def eraseKey (k : String) : List (String × α) → List (String × α)
  | [] => []
  | (k', v') :: rest =>
    if k' = k then rest else (k', v') :: eraseKey k rest

/-- The Map invariant: every key is bound at most once. -/
def keysNodup (l : List (String × α)) : Prop :=
  (l.map Prod.fst).Nodup

instance (l : List (String × α)) : Decidable (keysNodup l) := by
  unfold keysNodup; infer_instance

/-! ## Error model (src/utils/api.ts, src/types/index.ts) -/

/-- The KovaaksErrorType enum from src/types/index.ts. -/
inductive KovaaksErrorType where
  | NETWORK_ERROR
  | TIMEOUT
  | SERVER_ERROR
  | RATE_LIMITED
  | AUTHENTICATION_ERROR
  | AUTHORIZATION_ERROR
  | VALIDATION_ERROR
  | NOT_FOUND
  | PARAMETER_ERROR
  | CONFIGURATION_ERROR
  | UNKNOWN_ERROR
  deriving DecidableEq, Repr

/-- The duck-typed error object flowing through the request layer: the union
of the fields categorizeError, formatDetailedError and executeRequest inspect
on KovaaksApiError and raw errors. Absent fields are none. The response body
attached at `data` is modelled as an opaque string (the code only ever
compares it to the literal string "Invalid Route"). -/
structure ApiError where
  message : String
  status : Option Nat
  code : Option String
  data : Option String
  etype : Option KovaaksErrorType
  method : Option String
  url : Option String
  retryAttempts : Option Nat
  retryable : Option Bool
  deriving DecidableEq, Repr

/-- categorizeError from src/utils/api.ts lines 159-204. The JavaScript test
`!error.status || error.status === 0` becomes status = none or some 0; the
400-range switch with fall-through on default becomes the inner match whose
unmatched statuses drop to the 500-range and ECONNABORTED checks. -/
def categorizeError (error : ApiError) : KovaaksErrorType :=
  if error.status = none ∨ error.status = some 0 then
    if strContains error.message "timeout" ∨ strContains error.message "timed out" then
      KovaaksErrorType.TIMEOUT
    else
      KovaaksErrorType.NETWORK_ERROR
  else
    let status := error.status.getD 0
    let clientRangeKind : Option KovaaksErrorType :=
      if 400 ≤ status ∧ status < 500 then
        match status with
        | 401 => some KovaaksErrorType.AUTHENTICATION_ERROR
        | 403 => some KovaaksErrorType.AUTHORIZATION_ERROR
        | 404 => some KovaaksErrorType.NOT_FOUND
        | 422 => some KovaaksErrorType.VALIDATION_ERROR
        | 429 => some KovaaksErrorType.RATE_LIMITED
        | _ => none
      else none
    match clientRangeKind with
    | some kind => kind
    | none =>
      if 500 ≤ status then
        KovaaksErrorType.SERVER_ERROR
      else if error.code = some "ECONNABORTED" then
        KovaaksErrorType.TIMEOUT
      else
        KovaaksErrorType.UNKNOWN_ERROR

/-- The list of error types considered retryable by formatDetailedError
(src/utils/api.ts lines 236-241). -/
def retryableTypes : List KovaaksErrorType :=
  [KovaaksErrorType.TIMEOUT, KovaaksErrorType.NETWORK_ERROR,
    KovaaksErrorType.SERVER_ERROR, KovaaksErrorType.RATE_LIMITED]

/-- formatDetailedError from src/utils/api.ts lines 209-245. Builds a fresh
classified error: message defaulted when falsy, type from categorizeError,
request context copied when supplied, and retryAttempts/retryable attached
only when a retry count is supplied. The code field is not carried over
(the source constructs a new object without it). -/
def formatDetailedError (error : ApiError) (method url : Option String)
    (retryAttempts : Option Nat) : ApiError :=
  let errorType := categorizeError error
  { message := if error.message = "" then "Unknown error occurred" else error.message
    status := error.status
    code := none
    data := error.data
    etype := some errorType
    method := method
    url := url
    retryAttempts := retryAttempts
    retryable := retryAttempts.map fun _ => decide (errorType ∈ retryableTypes) }

/-! ## Retry policy (src/utils/api.ts) -/

/-- RetryConfig from src/utils/api.ts lines 44-50. Delay quantities are exact
rationals standing for the JavaScript numbers. -/
structure RetryConfig where
  maxRetries : Nat
  initialDelayMs : ℚ
  maxDelayMs : ℚ
  backoffFactor : ℚ
  retryableStatusCodes : List Nat
  deriving DecidableEq, Repr

/-- DEFAULT_RETRY_CONFIG from src/utils/api.ts lines 52-58. -/
def DEFAULT_RETRY_CONFIG : RetryConfig :=
  { maxRetries := 3
    initialDelayMs := 300
    maxDelayMs := 10000
    backoffFactor := 2
    retryableStatusCodes := [408, 429, 500, 502, 503, 504] }

/-- calculateRetryDelay from src/utils/api.ts lines 355-367. Math.random()
is the explicit parameter rand, so jitter = 0.8 + rand * 0.4. -/
def calculateRetryDelay (attempt : Nat) (config : RetryConfig) (rand : ℚ) : ℚ :=
  let exponentialDelay := config.initialDelayMs * config.backoffFactor ^ attempt
  let jitter := 4/5 + rand * (2/5)
  min (exponentialDelay * jitter) config.maxDelayMs

/-- The final-throw step of executeRequest (src/utils/api.ts lines 437-452):
an error that already carries a classification just gets the retry count
attached; an unclassified error is run through formatDetailedError. -/
def attachRetryInfo (error : ApiError) (method url : String)
    (retryAttempt : Nat) : ApiError :=
  if error.etype.isSome then
    { error with retryAttempts := some retryAttempt }
  else
    formatDetailedError error (some method) (some url) (some retryAttempt)

/-- executeRequest from src/utils/api.ts lines 412-468, with the producer
instrumented: the second component counts how many times the underlying call
(client.request) was invoked from this attempt on. The producer is indexed by
the attempt number so a deterministic schedule of outcomes can be supplied.
The JavaScript short-circuit `retryConfig === false || retryAttempt >=
retryConfig.maxRetries || !retryConfig.retryableStatusCodes.includes(
error.status || 0)` is rendered as the match on the optional config followed
by the disjunction; the backoff wait itself has no observable effect on the
modelled outcome and is dropped. retryConfig = none models retry: false. -/
def executeRequest {α : Type} (producer : Nat → Except ApiError α)
    (retryConfig : Option RetryConfig) (method url : String)
    (retryAttempt : Nat) : Except ApiError (Option α) × Nat :=
  match producer retryAttempt with
  | Except.ok value => (Except.ok (some value), 1)
  | Except.error error =>
    if error.etype = some KovaaksErrorType.NOT_FOUND ∧
        (error.data = some "Invalid Route" ∨ strContains url "/webapp-backend/scenario") then
      (Except.ok none, 1)
    else
      match retryConfig with
      | none => (Except.error (attachRetryInfo error method url retryAttempt), 1)
      | some config =>
        if h : config.maxRetries ≤ retryAttempt ∨
            (error.status.getD 0) ∉ config.retryableStatusCodes then
          (Except.error (attachRetryInfo error method url retryAttempt), 1)
        else
          let rest := executeRequest producer (some config) method url (retryAttempt + 1)
          (rest.1, rest.2 + 1)
termination_by
  (match retryConfig with | none => 0 | some config => config.maxRetries + 1) - retryAttempt
decreasing_by
  push_neg at h
  omega

/-! ## In-flight call deduplication (src/utils/api.ts) -/

/-- The PendingMethodCall / PendingRequest record from src/utils/api.ts
lines 17-21 and 30-34: the shared promise (identified by a Nat id) plus
registration time and expiry. -/
structure PendingCall where
  promise : Nat
  timestamp : Int
  expiresAt : Int
  deriving DecidableEq, Repr

/-- The state touched by the deduplication wrapper: the pendingMethodCalls
map, a supply of fresh promise identities, and the instrumented count of
producer invocations. -/
structure DedupState where
  pendingMethodCalls : List (String × PendingCall)
  nextPromise : Nat
  invocations : Nat
  deriving DecidableEq, Repr

/-- One call of the wrapper built by deduplicateRequests (src/utils/api.ts
lines 78-109), at time now for the given cache key: if a pending record
exists and now is strictly before its expiry, return its promise without
invoking the producer; otherwise invoke the producer (modelled as drawing a
fresh promise id and bumping the invocation count) and register it under the
key with expiry now + ttl. -/
def deduplicateRequests (cacheKey : String) (ttl now : Int)
    (s : DedupState) : Nat × DedupState :=
  match List.lookup cacheKey s.pendingMethodCalls with
  | some pendingCall =>
    if now < pendingCall.expiresAt then
      (pendingCall.promise, s)
    else
      (s.nextPromise,
        { pendingMethodCalls :=
            setKey cacheKey ⟨s.nextPromise, now, now + ttl⟩ s.pendingMethodCalls
          nextPromise := s.nextPromise + 1
          invocations := s.invocations + 1 })
  | none =>
      (s.nextPromise,
        { pendingMethodCalls :=
            setKey cacheKey ⟨s.nextPromise, now, now + ttl⟩ s.pendingMethodCalls
          nextPromise := s.nextPromise + 1
          invocations := s.invocations + 1 })

/-- The promise.finally cleanup registered by deduplicateRequests
(src/utils/api.ts lines 102-107) and makeAuthenticatedRequest
(lines 482-488), run when the promise with the given id settles: the record
is deleted only if the map still holds that very promise under the key. -/
def settlePendingCall (cacheKey : String) (promise : Nat)
    (s : DedupState) : DedupState :=
  match List.lookup cacheKey s.pendingMethodCalls with
  | some pendingCall =>
    if pendingCall.promise = promise then
      { s with pendingMethodCalls := eraseKey cacheKey s.pendingMethodCalls }
    else s
  | none => s

/-! ## Persistent cache (src/utils/cache.ts) -/

/-- CacheEntry from src/utils/cache.ts lines 10-14. timestamp is the
creation time (createdAt in the spec). -/
structure CacheEntry (α : Type) where
  data : α
  timestamp : Int
  expiresAt : Int
  deriving DecidableEq, Repr

/-- The observable state of a PersistentCache instance: the in-memory map,
the enableCaching flag, and the contents of the on-disk cache file (none
when the file does not exist). Serialization is modelled as the identity on
the entry list, since the JSON round-trip preserves every field. -/
structure CacheState (α : Type) where
  cache : List (String × CacheEntry α)
  enableCaching : Bool
  file : Option (List (String × CacheEntry α))
  deriving DecidableEq, Repr

namespace PersistentCache

/-- PersistentCache.get from src/utils/cache.ts lines 196-218, returning the
hit value (or none for a miss) together with the possibly mutated state:
disabled caching and absent keys miss without mutation; an entry whose
expiresAt lies strictly in the past is deleted and reported as a miss. -/
def get (key : String) (now : Int) (s : CacheState α) :
    Option α × CacheState α :=
  if s.enableCaching = false then
    (none, s)
  else
    match List.lookup key s.cache with
    | none => (none, s)
    | some entry =>
      if entry.expiresAt < now then
        (none, { s with cache := eraseKey key s.cache })
      else
        (some entry.data, s)

/-- PersistentCache.set from src/utils/cache.ts lines 227-243: a no-op when
caching is disabled, otherwise inserts/replaces the entry with
timestamp = now and expiresAt = now + ttl. -/
def set (key : String) (data : α) (ttl : Int) (now : Int)
    (s : CacheState α) : CacheState α :=
  if s.enableCaching = false then
    s
  else
    { s with cache := setKey key ⟨data, now, now + ttl⟩ s.cache }

/-- PersistentCache.saveToDisk from src/utils/cache.ts lines 324-364: an
empty store deletes the file (when present) instead of writing an empty
payload; otherwise the non-expired entries are serialized to the file. -/
def saveToDisk (now : Int) (s : CacheState α) : CacheState α :=
  if s.cache.isEmpty then
    { s with file := none }
  else
    { s with file := some (s.cache.filter fun p => now ≤ p.2.expiresAt) }

/-- PersistentCache.loadFromDisk from src/utils/cache.ts lines 371-400: a
missing file leaves the store untouched; otherwise every stored entry that
is not yet expired at load time is set into the in-memory map. -/
def loadFromDisk (now : Int) (s : CacheState α) : CacheState α :=
  match s.file with
  | none => s
  | some entries =>
    { s with
        cache := entries.foldl
          (fun c p => if now ≤ p.2.expiresAt then setKey p.1 p.2 c else c)
          s.cache }

/-- PersistentCache.clear from src/utils/cache.ts lines 257-260: empty the
map, then save the empty store to disk. -/
def clear (now : Int) (s : CacheState α) : CacheState α :=
  saveToDisk now { s with cache := [] }

/-- The enableCaching setter from src/utils/cache.ts lines 118-124: record
the flag and, when disabling, clear the cache (which in turn saves). -/
def setEnableCaching (value : Bool) (now : Int) (s : CacheState α) :
    CacheState α :=
  let s1 := { s with enableCaching := value }
  if value = false then clear now s1 else s1

end PersistentCache

/-! ## Association-list lemmas -/

theorem lookup_cons_self (k : String) (v : α) (l : List (String × α)) :
    List.lookup k ((k, v) :: l) = some v := by
  simp [List.lookup]

theorem lookup_cons_ne (k k' : String) (v : α) (l : List (String × α))
    (h : k' ≠ k) : List.lookup k' ((k, v) :: l) = List.lookup k' l := by
  simp only [List.lookup]
  rw [show (k' == k) = false from beq_eq_false_iff_ne.mpr h]

theorem lookup_eq_none_of_not_mem_keys {l : List (String × α)} {k : String}
    (h : k ∉ l.map Prod.fst) : List.lookup k l = none := by
  induction l with
  | nil => rfl
  | cons p rest ih =>
    obtain ⟨k0, v0⟩ := p
    simp only [List.map_cons, List.mem_cons] at h
    push_neg at h
    rw [lookup_cons_ne _ _ _ _ h.1, ih h.2]

theorem lookup_setKey_self (k : String) (v : α) (l : List (String × α)) :
    List.lookup k (setKey k v l) = some v := by
  induction l with
  | nil => simp [setKey, lookup_cons_self]
  | cons p rest ih =>
    obtain ⟨k0, v0⟩ := p
    by_cases h : k0 = k
    · simp [setKey, h, lookup_cons_self]
    · simp only [setKey, h, if_false]
      rw [lookup_cons_ne _ _ _ _ (fun hk => h hk.symm), ih]

theorem lookup_setKey_ne (k k' : String) (v : α) (l : List (String × α))
    (h : k' ≠ k) : List.lookup k' (setKey k v l) = List.lookup k' l := by
  induction l with
  | nil =>
    simp only [setKey]
    rw [lookup_cons_ne _ _ _ _ h]
  | cons p rest ih =>
    obtain ⟨k0, v0⟩ := p
    by_cases hp : k0 = k
    · simp only [setKey, hp, if_true]
      rw [lookup_cons_ne _ _ _ _ h, lookup_cons_ne _ _ _ _ (hp ▸ h)]
    · simp only [setKey, hp, if_false]
      by_cases hk : k0 = k'
      · subst hk
        rw [lookup_cons_self, lookup_cons_self]
      · rw [lookup_cons_ne _ _ _ _ (fun hx => hk hx.symm),
          lookup_cons_ne _ _ _ _ (fun hx => hk hx.symm), ih]

theorem lookup_eraseKey_self (k : String) (l : List (String × α))
    (hnd : keysNodup l) : List.lookup k (eraseKey k l) = none := by
  induction l with
  | nil => rfl
  | cons p rest ih =>
    obtain ⟨k0, v0⟩ := p
    simp only [keysNodup, List.map_cons, List.nodup_cons] at hnd
    by_cases h : k0 = k
    · simp only [eraseKey, h, if_true]
      exact lookup_eq_none_of_not_mem_keys (h ▸ hnd.1)
    · simp only [eraseKey, h, if_false]
      rw [lookup_cons_ne _ _ _ _ (fun hk => h hk.symm), ih hnd.2]

theorem lookup_eraseKey_ne (k k' : String) (l : List (String × α))
    (h : k' ≠ k) : List.lookup k' (eraseKey k l) = List.lookup k' l := by
  induction l with
  | nil => rfl
  | cons p rest ih =>
    obtain ⟨k0, v0⟩ := p
    by_cases hp : k0 = k
    · simp only [eraseKey, hp, if_true]
      rw [lookup_cons_ne _ _ _ _ (hp ▸ h)]
    · simp only [eraseKey, hp, if_false]
      by_cases hk : k0 = k'
      · subst hk
        rw [lookup_cons_self, lookup_cons_self]
      · rw [lookup_cons_ne _ _ _ _ (fun hx => hk hx.symm),
          lookup_cons_ne _ _ _ _ (fun hx => hk hx.symm), ih]

theorem length_eraseKey_of_lookup {k : String} {l : List (String × α)} {v : α}
    (h : List.lookup k l = some v) :
    (eraseKey k l).length + 1 = l.length := by
  induction l with
  | nil => simp [List.lookup] at h
  | cons p rest ih =>
    obtain ⟨k0, v0⟩ := p
    by_cases hp : k0 = k
    · simp [eraseKey, hp]
    · rw [lookup_cons_ne _ _ _ _ (fun hk => hp hk.symm)] at h
      simp only [eraseKey, hp, if_false, List.length_cons, ih h]

theorem mem_setKey {q : String × α} {k : String} {v : α}
    {l : List (String × α)} (h : q ∈ setKey k v l) : q = (k, v) ∨ q ∈ l := by
  induction l with
  | nil => simpa [setKey] using h
  | cons p rest ih =>
    by_cases hp : p.1 = k
    · simp only [setKey, hp, if_true] at h
      rcases List.mem_cons.mp h with h1 | h1
      · exact Or.inl h1
      · exact Or.inr (List.mem_cons_of_mem p h1)
    · simp only [setKey, hp, if_false] at h
      rcases List.mem_cons.mp h with h1 | h1
      · exact Or.inr (h1 ▸ List.mem_cons_self p rest)
      · rcases ih h1 with h2 | h2
        · exact Or.inl h2
        · exact Or.inr (List.mem_cons_of_mem p h2)

theorem keysNodup_setKey (k : String) (v : α) (l : List (String × α))
    (hnd : keysNodup l) : keysNodup (setKey k v l) := by
  induction l with
  | nil => simp [keysNodup, setKey]
  | cons p rest ih =>
    simp only [keysNodup, List.map_cons, List.nodup_cons] at hnd
    by_cases h : p.1 = k
    · simp only [setKey, h, if_true, keysNodup, List.map_cons, List.nodup_cons]
      exact ⟨h ▸ hnd.1, hnd.2⟩
    · simp only [setKey, h, if_false, keysNodup, List.map_cons, List.nodup_cons]
      constructor
      · intro hmem
        rcases List.mem_map.mp hmem with ⟨q, hq, hfst⟩
        rcases mem_setKey hq with hq1 | hq1
        · exact h (by rw [← hfst, hq1])
        · exact hnd.1 (List.mem_map.mpr ⟨q, hq1, hfst⟩)
      · exact ih hnd.2

theorem keysNodup_cons {k : String} {v : α} {l : List (String × α)} :
    keysNodup ((k, v) :: l) ↔ k ∉ l.map Prod.fst ∧ keysNodup l := by
  simp [keysNodup]

theorem keysNodup_filter (p : String × CacheEntry α → Bool)
    (l : List (String × CacheEntry α)) (hnd : keysNodup l) :
    keysNodup (l.filter p) :=
  List.Nodup.sublist (List.Sublist.map Prod.fst (List.filter_sublist l)) hnd

theorem lookup_filterExpiry (t : Int) (k : String) :
    ∀ (L : List (String × CacheEntry α)), keysNodup L →
      List.lookup k (L.filter fun q => t ≤ q.2.expiresAt) =
        (match List.lookup k L with
          | some e => if t ≤ e.expiresAt then some e else none
          | none => none) := by
  intro L
  induction L with
  | nil => intro _; rfl
  | cons q rest ih =>
    intro hnd
    obtain ⟨k0, e0⟩ := q
    obtain ⟨hk0, hnd'⟩ := keysNodup_cons.mp hnd
    simp only [List.filter_cons]
    by_cases he : t ≤ e0.expiresAt
    · rw [if_pos (decide_eq_true he)]
      by_cases hk : k0 = k
      · subst hk
        rw [lookup_cons_self, lookup_cons_self]
        simp [he]
      · have hkk : k ≠ k0 := fun hx => hk hx.symm
        rw [lookup_cons_ne _ _ _ _ hkk, lookup_cons_ne _ _ _ _ hkk]
        exact ih hnd'
    · rw [if_neg (by simpa using he)]
      by_cases hk : k0 = k
      · subst hk
        have hrest : List.lookup k0 rest = none :=
          lookup_eq_none_of_not_mem_keys hk0
        rw [lookup_cons_self, ih hnd', hrest]
        simp [he]
      · have hkk : k ≠ k0 := fun hx => hk hx.symm
        rw [lookup_cons_ne _ _ _ _ hkk]
        exact ih hnd'

theorem lookup_loadFold (t : Int) (k : String) :
    ∀ (L c : List (String × CacheEntry α)), keysNodup L →
      List.lookup k
        (L.foldl (fun acc q => if t ≤ q.2.expiresAt then setKey q.1 q.2 acc else acc) c) =
        (match List.lookup k L with
          | some e => if t ≤ e.expiresAt then some e else List.lookup k c
          | none => List.lookup k c) := by
  intro L
  induction L with
  | nil => intro c _; rfl
  | cons q rest ih =>
    intro c hnd
    obtain ⟨k0, e0⟩ := q
    obtain ⟨hk0, hnd'⟩ := keysNodup_cons.mp hnd
    simp only [List.foldl_cons]
    by_cases he : t ≤ e0.expiresAt
    · rw [if_pos he]
      by_cases hk : k0 = k
      · subst hk
        have hrest : List.lookup k0 rest = none :=
          lookup_eq_none_of_not_mem_keys hk0
        rw [ih _ hnd', hrest, lookup_cons_self, lookup_setKey_self]
        simp [he]
      · have hkk : k ≠ k0 := fun hx => hk hx.symm
        rw [ih _ hnd', lookup_cons_ne _ _ _ _ hkk, lookup_setKey_ne _ _ _ _ hkk]
    · rw [if_neg he]
      by_cases hk : k0 = k
      · subst hk
        have hrest : List.lookup k0 rest = none :=
          lookup_eq_none_of_not_mem_keys hk0
        rw [ih _ hnd', hrest, lookup_cons_self]
        simp [he]
      · have hkk : k ≠ k0 := fun hx => hk hx.symm
        rw [ih _ hnd', lookup_cons_ne _ _ _ _ hkk]

theorem mem_loadFold (t : Int) :
    ∀ (L c : List (String × CacheEntry α)) (q : String × CacheEntry α),
      q ∈ L.foldl (fun acc r => if t ≤ r.2.expiresAt then setKey r.1 r.2 acc else acc) c →
      q ∈ L ∨ q ∈ c := by
  intro L
  induction L with
  | nil => intro c q h; exact Or.inr h
  | cons r rest ih =>
    intro c q h
    simp only [List.foldl_cons] at h
    rcases ih _ q h with h1 | h1
    · exact Or.inl (List.mem_cons_of_mem r h1)
    · by_cases he : t ≤ r.2.expiresAt
      · rw [if_pos he] at h1
        rcases mem_setKey h1 with h2 | h2
        · exact Or.inl (h2 ▸ List.mem_cons_self r rest)
        · exact Or.inr h2
      · rw [if_neg he] at h1
        exact Or.inr h1

/-! ## Claim theorems -/

/-- C1: while a pending record for a key exists and its TTL has not passed,
every further deduplicateRequests call returns the same shared promise
without invoking the producer again: after a first call registers the
record, a second call arriving before the TTL lapses returns the identical
promise and leaves the state (in particular the invocation count) untouched,
so the producer ran exactly once and both callers observe the settled
outcome of the same promise; the map still binds at most one record per key.
The last conjunct is the general step: any call that finds a non-expired
record returns its promise and changes nothing. -/
theorem C1_dedupe_single_producer_invocation
    (s : DedupState) (k : String) (ttl t1 t2 : Int)
    (hnone : List.lookup k s.pendingMethodCalls = none)
    (hnd : keysNodup s.pendingMethodCalls)
    (ht : t2 < t1 + ttl) :
    (deduplicateRequests k ttl t1 s).2.invocations = s.invocations + 1 ∧
    deduplicateRequests k ttl t2 (deduplicateRequests k ttl t1 s).2 =
      deduplicateRequests k ttl t1 s ∧
    List.lookup k (deduplicateRequests k ttl t1 s).2.pendingMethodCalls =
      some ⟨(deduplicateRequests k ttl t1 s).1, t1, t1 + ttl⟩ ∧
    keysNodup (deduplicateRequests k ttl t1 s).2.pendingMethodCalls ∧
    (∀ (s' : DedupState) (pc : PendingCall) (t' : Int),
      List.lookup k s'.pendingMethodCalls = some pc → t' < pc.expiresAt →
      deduplicateRequests k ttl t' s' = (pc.promise, s')) := by
  have hgen : ∀ (s' : DedupState) (pc : PendingCall) (t' : Int),
      List.lookup k s'.pendingMethodCalls = some pc → t' < pc.expiresAt →
      deduplicateRequests k ttl t' s' = (pc.promise, s') := by
    intro s' pc t' hpc hlt
    unfold deduplicateRequests
    rw [hpc]
    simp [hlt]
  have h1 : deduplicateRequests k ttl t1 s =
      (s.nextPromise,
        { pendingMethodCalls :=
            setKey k ⟨s.nextPromise, t1, t1 + ttl⟩ s.pendingMethodCalls
          nextPromise := s.nextPromise + 1
          invocations := s.invocations + 1 }) := by
    unfold deduplicateRequests
    rw [hnone]
  refine ⟨by rw [h1], ?_, ?_, ?_, hgen⟩
  · rw [h1]
    exact hgen _ ⟨s.nextPromise, t1, t1 + ttl⟩ t2
      (lookup_setKey_self k _ s.pendingMethodCalls) ht
  · rw [h1]
    exact lookup_setKey_self k _ s.pendingMethodCalls
  · rw [h1]
    exact keysNodup_setKey k _ s.pendingMethodCalls hnd

theorem C1_dedupe_single_producer_invocation_witness :
    (deduplicateRequests "k" 120000 0 ⟨[], 0, 0⟩).2.invocations = 0 + 1 ∧
    deduplicateRequests "k" 120000 5 (deduplicateRequests "k" 120000 0 ⟨[], 0, 0⟩).2 =
      deduplicateRequests "k" 120000 0 ⟨[], 0, 0⟩ :=
  ⟨(C1_dedupe_single_producer_invocation ⟨[], 0, 0⟩ "k" 120000 0 5 rfl
      (by decide) (by decide)).1,
    (C1_dedupe_single_producer_invocation ⟨[], 0, 0⟩ "k" 120000 0 5 rfl
      (by decide) (by decide)).2.1⟩

/-- C7: the settlement cleanup deletes a pending record only when the map
still holds the very promise that settled: if it does, the record is gone
afterwards and running the same cleanup again changes nothing (removal
happens exactly once); if the map meanwhile holds a different record under
the same key, the cleanup leaves the state completely unchanged; records
under other keys are never touched. -/
theorem C7_settlement_cleanup_guarded
    (s : DedupState) (k : String) (p : Nat)
    (hnd : keysNodup s.pendingMethodCalls) :
    (∀ pc : PendingCall,
      List.lookup k s.pendingMethodCalls = some pc → pc.promise = p →
      List.lookup k (settlePendingCall k p s).pendingMethodCalls = none ∧
      settlePendingCall k p (settlePendingCall k p s) = settlePendingCall k p s) ∧
    (∀ pc : PendingCall,
      List.lookup k s.pendingMethodCalls = some pc → pc.promise ≠ p →
      settlePendingCall k p s = s) ∧
    (∀ k' : String, k' ≠ k →
      List.lookup k' (settlePendingCall k p s).pendingMethodCalls =
        List.lookup k' s.pendingMethodCalls) := by
  refine ⟨?_, ?_, ?_⟩
  · intro pc hpc hpp
    have h1 : settlePendingCall k p s =
        { s with pendingMethodCalls := eraseKey k s.pendingMethodCalls } := by
      unfold settlePendingCall
      rw [hpc]
      simp [hpp]
    have h2 : List.lookup k (eraseKey k s.pendingMethodCalls) = none :=
      lookup_eraseKey_self k _ hnd
    have h3 : settlePendingCall k p
        { s with pendingMethodCalls := eraseKey k s.pendingMethodCalls } =
        { s with pendingMethodCalls := eraseKey k s.pendingMethodCalls } := by
      unfold settlePendingCall
      rw [h2]
    rw [h1]
    exact ⟨h2, h3⟩
  · intro pc hpc hpp
    unfold settlePendingCall
    rw [hpc]
    simp [hpp]
  · intro k' hk'
    unfold settlePendingCall
    rcases hpc : List.lookup k s.pendingMethodCalls with _ | pc
    · rfl
    · by_cases hpp : pc.promise = p
      · simp only [hpp, if_true]
        exact lookup_eraseKey_ne _ _ _ hk'
      · simp [hpp]

theorem C7_settlement_cleanup_guarded_witness :
    List.lookup "k"
      (settlePendingCall "k" 7 ⟨[("k", ⟨7, 0, 100⟩)], 8, 1⟩).pendingMethodCalls = none ∧
    settlePendingCall "k" 9 ⟨[("k", ⟨7, 0, 100⟩)], 8, 1⟩ =
      ⟨[("k", ⟨7, 0, 100⟩)], 8, 1⟩ :=
  ⟨((C7_settlement_cleanup_guarded ⟨[("k", ⟨7, 0, 100⟩)], 8, 1⟩ "k" 7
      (by decide)).1 ⟨7, 0, 100⟩ (by decide) rfl).1,
    (C7_settlement_cleanup_guarded ⟨[("k", ⟨7, 0, 100⟩)], 8, 1⟩ "k" 9
      (by decide)).2.1 ⟨7, 0, 100⟩ (by decide) (by decide)⟩

/-- C2 counterexample: the claim says a failure with a non-retryable
classification kind (here AuthenticationError from status 401) is attempted
exactly once even when its status is in retryableStatusCodes. In the code
the retry decision looks only at the status list, so with 401 configured as
retryable and maxRetries = 1 the producer is invoked twice. -/
theorem C2_nonretryable_kind_retried_cex :
    (executeRequest (α := Nat)
      (fun _ => Except.error
        { message := "Unauthorized", status := some 401, code := none,
          data := none, etype := some KovaaksErrorType.AUTHENTICATION_ERROR,
          method := none, url := none, retryAttempts := none, retryable := none })
      (some { maxRetries := 1, initialDelayMs := 10, maxDelayMs := 100,
              backoffFactor := 2, retryableStatusCodes := [401] })
      "GET" "/profile" 0).2 = 2 ∧
    401 ∈ [401] ∧ (2 : Nat) ≠ 1 := by
  refine ⟨?_, by decide, by decide⟩
  simp [executeRequest, strContains]

/-- C2 amended: the retry decision of executeRequest is based solely on the
status list, not on the classification kind. A call failing with a
non-retryable classification kind (AuthenticationError or ValidationError)
is attempted exactly once provided its status is not in the policy's
retryableStatusCodes list — which holds for the default policy, whose list
omits 401 and 422 — but classification does not take precedence when the
status is configured retryable. -/
theorem C2_retry_decision_is_status_list_only
    {α : Type} (config : RetryConfig) (method url : String) (e : ApiError)
    (hkind : e.etype = some KovaaksErrorType.AUTHENTICATION_ERROR ∨
      e.etype = some KovaaksErrorType.VALIDATION_ERROR)
    (hstatus : e.status.getD 0 ∉ config.retryableStatusCodes) :
    (executeRequest (α := α) (fun _ => Except.error e)
      (some config) method url 0).2 = 1 := by
  rcases hkind with h | h <;> simp [executeRequest, h, hstatus]

theorem C2_retry_decision_is_status_list_only_witness :
    (executeRequest (α := Nat)
      (fun _ => Except.error
        { message := "Unauthorized", status := some 401, code := none,
          data := none, etype := some KovaaksErrorType.AUTHENTICATION_ERROR,
          method := none, url := none, retryAttempts := none, retryable := none })
      (some DEFAULT_RETRY_CONFIG) "GET" "/profile" 0).2 = 1 :=
  C2_retry_decision_is_status_list_only DEFAULT_RETRY_CONFIG "GET" "/profile" _
    (Or.inl rfl) (by decide)

/-- C3 counterexample: under the policy of the claim's scenario (maxRetries 3,
initialDelay 10, backoff factor 2, default retryable status list) against a
producer failing with status 503 every time, 4 producer invocations happen,
but the final error's retryAttempts field is 3 (the number of retries), not
4 (the total number of tries) as the claim states. -/
theorem C3_attempts_field_is_retry_count_cex :
    (executeRequest (α := Nat)
      (fun _ => Except.error
        { message := "Service Unavailable", status := some 503, code := none,
          data := none, etype := none, method := none, url := none,
          retryAttempts := none, retryable := none })
      (some { maxRetries := 3, initialDelayMs := 10, maxDelayMs := 10000,
              backoffFactor := 2, retryableStatusCodes := [408, 429, 500, 502, 503, 504] })
      "GET" "/scores" 0).2 = 4 ∧
    (executeRequest (α := Nat)
      (fun _ => Except.error
        { message := "Service Unavailable", status := some 503, code := none,
          data := none, etype := none, method := none, url := none,
          retryAttempts := none, retryable := none })
      (some { maxRetries := 3, initialDelayMs := 10, maxDelayMs := 10000,
              backoffFactor := 2, retryableStatusCodes := [408, 429, 500, 502, 503, 504] })
      "GET" "/scores" 0).1 =
      Except.error
        { message := "Service Unavailable", status := some 503, code := none,
          data := none, etype := some KovaaksErrorType.SERVER_ERROR,
          method := some "GET", url := some "/scores",
          retryAttempts := some 3, retryable := some true } ∧
    (some 3 : Option Nat) ≠ some 4 := by
  refine ⟨?_, ?_, by decide⟩ <;>
    simp [executeRequest, attachRetryInfo, formatDetailedError, categorizeError,
      retryableTypes, strContains]

/-- C3 amended: in the claim's scenario the caller receives exactly one
classified error after 4 tries (1 initial + 3 retries); the error has
kind ServerError and retryable = true, but its retryAttempts field records
the number of retries, 3 = total tries - 1, rather than the total number of
tries; moreover retryable is populated only when the failing error reaches
the executor unclassified — an error that already carries a classification
(the HTTP-interceptor path) only gets retryAttempts attached and its
retryable field stays absent. -/
theorem C3_exhausted_retries_metadata :
    (executeRequest (α := Nat)
      (fun _ => Except.error
        { message := "Service Unavailable", status := some 503, code := none,
          data := none, etype := none, method := none, url := none,
          retryAttempts := none, retryable := none })
      (some { maxRetries := 3, initialDelayMs := 10, maxDelayMs := 10000,
              backoffFactor := 2, retryableStatusCodes := [408, 429, 500, 502, 503, 504] })
      "GET" "/scores" 0) =
      (Except.error
        { message := "Service Unavailable", status := some 503, code := none,
          data := none, etype := some KovaaksErrorType.SERVER_ERROR,
          method := some "GET", url := some "/scores",
          retryAttempts := some 3, retryable := some true }, 4) ∧
    (executeRequest (α := Nat)
      (fun _ => Except.error
        { message := "Service Unavailable", status := some 503, code := none,
          data := none, etype := some KovaaksErrorType.SERVER_ERROR,
          method := none, url := none, retryAttempts := none, retryable := none })
      (some { maxRetries := 3, initialDelayMs := 10, maxDelayMs := 10000,
              backoffFactor := 2, retryableStatusCodes := [408, 429, 500, 502, 503, 504] })
      "GET" "/scores" 0) =
      (Except.error
        { message := "Service Unavailable", status := some 503, code := none,
          data := none, etype := some KovaaksErrorType.SERVER_ERROR,
          method := none, url := none,
          retryAttempts := some 3, retryable := none }, 4) := by
  constructor <;>
    simp [executeRequest, attachRetryInfo, formatDetailedError, categorizeError,
      retryableTypes, strContains]

/-- C5: categorizeError is a total function (it is defined for every
ApiError and returns exactly one kind, with no side effect or exception by
construction) and applies the rule table in order with first match winning:
missing/zero status with a message mentioning a timeout gives TIMEOUT;
missing/zero status otherwise gives NETWORK_ERROR; statuses 401, 403, 404,
422, 429 give their dedicated kinds; any status at least 500 gives
SERVER_ERROR; otherwise an ECONNABORTED code gives TIMEOUT; anything else
gives UNKNOWN_ERROR. -/
theorem C5_categorizeError_rule_table (e : ApiError) :
    ((e.status = none ∨ e.status = some 0) →
      (strContains e.message "timeout" = true ∨ strContains e.message "timed out" = true) →
      categorizeError e = KovaaksErrorType.TIMEOUT) ∧
    ((e.status = none ∨ e.status = some 0) →
      strContains e.message "timeout" = false →
      strContains e.message "timed out" = false →
      categorizeError e = KovaaksErrorType.NETWORK_ERROR) ∧
    (e.status = some 401 → categorizeError e = KovaaksErrorType.AUTHENTICATION_ERROR) ∧
    (e.status = some 403 → categorizeError e = KovaaksErrorType.AUTHORIZATION_ERROR) ∧
    (e.status = some 404 → categorizeError e = KovaaksErrorType.NOT_FOUND) ∧
    (e.status = some 422 → categorizeError e = KovaaksErrorType.VALIDATION_ERROR) ∧
    (e.status = some 429 → categorizeError e = KovaaksErrorType.RATE_LIMITED) ∧
    (∀ n : Nat, e.status = some n → 500 ≤ n →
      categorizeError e = KovaaksErrorType.SERVER_ERROR) ∧
    (∀ n : Nat, e.status = some n → n ≠ 0 → n < 500 →
      n ∉ [401, 403, 404, 422, 429] → e.code = some "ECONNABORTED" →
      categorizeError e = KovaaksErrorType.TIMEOUT) ∧
    (∀ n : Nat, e.status = some n → n ≠ 0 → n < 500 →
      n ∉ [401, 403, 404, 422, 429] → e.code ≠ some "ECONNABORTED" →
      categorizeError e = KovaaksErrorType.UNKNOWN_ERROR) := by
  refine ⟨?_, ?_, ?_, ?_, ?_, ?_, ?_, ?_, ?_, ?_⟩
  · intro hns htm
    unfold categorizeError
    rw [if_pos hns, if_pos htm]
  · intro hns h1 h2
    unfold categorizeError
    rw [if_pos hns, if_neg (by simp [h1, h2])]
  · intro h; simp [categorizeError, h]
  · intro h; simp [categorizeError, h]
  · intro h; simp [categorizeError, h]
  · intro h; simp [categorizeError, h]
  · intro h; simp [categorizeError, h]
  · intro n hn h500
    have hno : ¬(e.status = none ∨ e.status = some 0) := by
      rw [hn]; rintro (h | h) <;> simp at h; omega
    unfold categorizeError
    rw [if_neg hno, hn]
    dsimp only [Option.getD]
    rw [if_neg (by omega : ¬(400 ≤ n ∧ n < 500))]
    dsimp only
    rw [if_pos h500]
  · intro n hn hn0 h500 hmem hcode
    have hno : ¬(e.status = none ∨ e.status = some 0) := by
      rw [hn]; rintro (h | h) <;> simp at h; omega
    simp only [List.mem_cons, List.not_mem_nil] at hmem
    push_neg at hmem
    unfold categorizeError
    rw [if_neg hno, hn]
    dsimp only [Option.getD]
    by_cases h4 : 400 ≤ n ∧ n < 500
    · rw [if_pos h4]
      split
      · rename_i kind heq
        split at heq
        · omega
        · omega
        · omega
        · omega
        · omega
        · exact Option.noConfusion heq
      · rw [if_neg (by omega : ¬ 500 ≤ n), if_pos hcode]
    · rw [if_neg h4]
      dsimp only
      rw [if_neg (by omega : ¬ 500 ≤ n), if_pos hcode]
  · intro n hn hn0 h500 hmem hcode
    have hno : ¬(e.status = none ∨ e.status = some 0) := by
      rw [hn]; rintro (h | h) <;> simp at h; omega
    simp only [List.mem_cons, List.not_mem_nil] at hmem
    push_neg at hmem
    unfold categorizeError
    rw [if_neg hno, hn]
    dsimp only [Option.getD]
    by_cases h4 : 400 ≤ n ∧ n < 500
    · rw [if_pos h4]
      split
      · rename_i kind heq
        split at heq
        · omega
        · omega
        · omega
        · omega
        · omega
        · exact Option.noConfusion heq
      · rw [if_neg (by omega : ¬ 500 ≤ n), if_neg hcode]
    · rw [if_neg h4]
      dsimp only
      rw [if_neg (by omega : ¬ 500 ≤ n), if_neg hcode]

theorem C5_categorizeError_rule_table_witness :
    categorizeError
      { message := "Unauthorized", status := some 401, code := none, data := none,
        etype := none, method := none, url := none,
        retryAttempts := none, retryable := none } =
      KovaaksErrorType.AUTHENTICATION_ERROR ∧
    categorizeError
      { message := "request timed out", status := none, code := none, data := none,
        etype := none, method := none, url := none,
        retryAttempts := none, retryable := none } =
      KovaaksErrorType.TIMEOUT ∧
    categorizeError
      { message := "boom", status := some 503, code := none, data := none,
        etype := none, method := none, url := none,
        retryAttempts := none, retryable := none } =
      KovaaksErrorType.SERVER_ERROR :=
  ⟨(C5_categorizeError_rule_table _).2.2.1 rfl,
    (C5_categorizeError_rule_table _).1 (Or.inl rfl) (Or.inr (by decide)),
    (C5_categorizeError_rule_table _).2.2.2.2.2.2.2.1 503 rfl (by decide)⟩

/-- C8 counterexample: the claim's lower bound initialDelay * factor^N * 0.8
fails once the exponential term crosses maxDelay: with the default policy at
attempt 10 and the smallest jitter draw, the computed delay is capped at
10000 while the claimed lower bound is 300 * 2^10 * 0.8 = 245760. -/
theorem C8_lower_bound_fails_cex :
    calculateRetryDelay 10 DEFAULT_RETRY_CONFIG 0 = 10000 ∧
    ¬ (DEFAULT_RETRY_CONFIG.initialDelayMs * DEFAULT_RETRY_CONFIG.backoffFactor ^ 10 * (4/5)
        ≤ calculateRetryDelay 10 DEFAULT_RETRY_CONFIG 0) := by
  constructor <;> norm_num [calculateRetryDelay, DEFAULT_RETRY_CONFIG]

/-- C8 amended: for every attempt N and every jitter draw rand with
0 ≤ rand (Math.random() is nonnegative), the computed delay is
min(initialDelay * backoffFactor^N * jitter, maxDelay) with
jitter = 0.8 + 0.4 * rand ≥ 0.8; hence the delay never exceeds maxDelay and
is at least min(initialDelay * backoffFactor^N * 0.8, maxDelay) — the
claimed lower bound capped, like the delay itself, at maxDelay. -/
theorem C8_delay_bounds (config : RetryConfig) (attempt : Nat) (rand : ℚ)
    (hrand : 0 ≤ rand) (hinit : 0 ≤ config.initialDelayMs)
    (hfac : 0 ≤ config.backoffFactor) :
    calculateRetryDelay attempt config rand ≤ config.maxDelayMs ∧
    min (config.initialDelayMs * config.backoffFactor ^ attempt * (4/5)) config.maxDelayMs ≤
      calculateRetryDelay attempt config rand := by
  unfold calculateRetryDelay
  dsimp only
  constructor
  · exact min_le_right _ _
  · have hx : (0:ℚ) ≤ config.initialDelayMs * config.backoffFactor ^ attempt :=
      mul_nonneg hinit (pow_nonneg hfac _)
    have hj : (4/5 : ℚ) ≤ 4/5 + rand * (2/5) := by nlinarith
    exact min_le_min (mul_le_mul_of_nonneg_left hj hx) le_rfl

theorem C8_delay_bounds_witness :
    calculateRetryDelay 2 DEFAULT_RETRY_CONFIG (1/2) ≤ DEFAULT_RETRY_CONFIG.maxDelayMs ∧
    min (DEFAULT_RETRY_CONFIG.initialDelayMs * DEFAULT_RETRY_CONFIG.backoffFactor ^ 2 * (4/5))
      DEFAULT_RETRY_CONFIG.maxDelayMs ≤ calculateRetryDelay 2 DEFAULT_RETRY_CONFIG (1/2) :=
  C8_delay_bounds DEFAULT_RETRY_CONFIG 2 (1/2) (by norm_num)
    (by norm_num [DEFAULT_RETRY_CONFIG]) (by norm_num [DEFAULT_RETRY_CONFIG])

/-- C4: get returns a miss when the key is absent or caching is globally
disabled (in both cases without mutating anything), and when the stored
entry's expiresAt has passed it both misses and deletes the entry, so the
key no longer resolves and the store's size drops by one — the read behaves
exactly like a miss with lazy deletion. -/
theorem C4_get_miss_semantics {α : Type} (s : CacheState α) (key : String) (now : Int) :
    (s.enableCaching = false → PersistentCache.get key now s = (none, s)) ∧
    (List.lookup key s.cache = none → PersistentCache.get key now s = (none, s)) ∧
    (∀ entry : CacheEntry α, s.enableCaching = true →
      List.lookup key s.cache = some entry → entry.expiresAt < now →
      PersistentCache.get key now s = (none, { s with cache := eraseKey key s.cache }) ∧
      (keysNodup s.cache → List.lookup key (eraseKey key s.cache) = none) ∧
      (eraseKey key s.cache).length + 1 = s.cache.length) := by
  refine ⟨?_, ?_, ?_⟩
  · intro h
    unfold PersistentCache.get
    rw [if_pos h]
  · intro h
    unfold PersistentCache.get
    by_cases hb : s.enableCaching = false
    · rw [if_pos hb]
    · rw [if_neg hb, h]
  · intro entry hen hl hex
    refine ⟨?_, fun hnd => lookup_eraseKey_self _ _ hnd,
      length_eraseKey_of_lookup hl⟩
    unfold PersistentCache.get
    rw [if_neg (by simp [hen]), hl]
    simp [hex]

theorem C4_get_miss_semantics_witness :
    PersistentCache.get "k" 200 (⟨[("k", ⟨7, 0, 100⟩)], true, none⟩ : CacheState Nat) =
      (none, ⟨[], true, none⟩) ∧
    PersistentCache.get "k" 50 (⟨[("k", ⟨7, 0, 100⟩)], false, none⟩ : CacheState Nat) =
      (none, ⟨[("k", ⟨7, 0, 100⟩)], false, none⟩) :=
  ⟨((C4_get_miss_semantics ⟨[("k", ⟨7, 0, 100⟩)], true, none⟩ "k" 200).2.2
      ⟨7, 0, 100⟩ rfl (by decide) (by decide)).1,
    (C4_get_miss_semantics ⟨[("k", ⟨7, 0, 100⟩)], false, none⟩ "k" 50).1 rfl⟩

/-- C6: persistence round-trip. Saving at time t1 and loading into a fresh
store at a later time t2 reproduces exactly the entries that are not yet
expired at load time, with identical values; entries expired by t2 are
absent. When the store is empty, saveToDisk deletes the file instead of
writing an empty payload. -/
theorem C6_persistence_round_trip {α : Type} (s : CacheState α) (t1 t2 : Int)
    (hnd : keysNodup s.cache) (ht : t1 ≤ t2) :
    (∀ k : String,
      List.lookup k
        (PersistentCache.loadFromDisk t2
          { cache := [], enableCaching := true,
            file := (PersistentCache.saveToDisk t1 s).file }).cache =
        (match List.lookup k s.cache with
          | some e => if t2 ≤ e.expiresAt then some e else none
          | none => none)) ∧
    (s.cache = [] → (PersistentCache.saveToDisk t1 s).file = none) := by
  constructor
  · intro k
    by_cases hemp : s.cache.isEmpty = true
    · have hcache : s.cache = [] := List.isEmpty_iff.mp hemp
      simp [PersistentCache.saveToDisk, PersistentCache.loadFromDisk, hcache]
    · have h1 : (PersistentCache.saveToDisk t1 s).file =
          some (s.cache.filter fun q => t1 ≤ q.2.expiresAt) := by
        unfold PersistentCache.saveToDisk
        rw [if_neg hemp]
      rw [h1]
      unfold PersistentCache.loadFromDisk
      dsimp only
      rw [lookup_loadFold t2 k _ _ (keysNodup_filter _ s.cache hnd),
        lookup_filterExpiry t1 k s.cache hnd]
      rcases hl : List.lookup k s.cache with _ | e
      · simp
      · by_cases h2 : t2 ≤ e.expiresAt
        · have ht1 : t1 ≤ e.expiresAt := le_trans ht h2
          simp [ht1, h2]
        · by_cases ht1 : t1 ≤ e.expiresAt
          · simp [ht1, h2, List.lookup]
          · simp [ht1, h2, List.lookup]
  · intro hc
    unfold PersistentCache.saveToDisk
    rw [if_pos (by simp [hc])]

theorem C6_persistence_round_trip_witness :
    List.lookup "a"
      (PersistentCache.loadFromDisk 200
        { cache := [], enableCaching := true,
          file := (PersistentCache.saveToDisk 50
            (⟨[("a", ⟨1, 0, 100⟩), ("b", ⟨2, 0, 300⟩)], true, none⟩ : CacheState Nat)).file }).cache =
      none ∧
    List.lookup "b"
      (PersistentCache.loadFromDisk 200
        { cache := [], enableCaching := true,
          file := (PersistentCache.saveToDisk 50
            (⟨[("a", ⟨1, 0, 100⟩), ("b", ⟨2, 0, 300⟩)], true, none⟩ : CacheState Nat)).file }).cache =
      some ⟨2, 0, 300⟩ :=
  ⟨(C6_persistence_round_trip ⟨[("a", ⟨1, 0, 100⟩), ("b", ⟨2, 0, 300⟩)], true, none⟩
      50 200 (by decide) (by decide)).1 "a",
    (C6_persistence_round_trip ⟨[("a", ⟨1, 0, 100⟩), ("b", ⟨2, 0, 300⟩)], true, none⟩
      50 200 (by decide) (by decide)).1 "b"⟩

/-- C9 counterexample: the claim says every entry satisfies
expiresAt > createdAt for every caller-supplied ttl. A set with ttl = 0
stores an entry with expiresAt = timestamp, violating the strict
inequality. -/
theorem C9_zero_ttl_breaks_invariant_cex :
    ¬ (∀ q ∈ (PersistentCache.set "k" (7 : Nat) 0 100
        (⟨[], true, none⟩ : CacheState Nat)).cache,
        q.2.timestamp < q.2.expiresAt) := by
  decide

/-- C9 amended: the invariant expiresAt > createdAt is established by set
for every positive caller-supplied ttl (set writes timestamp = now and
expiresAt = now + ttl), and it is preserved by loadFromDisk provided the
entries stored in the file satisfy it; a non-positive ttl violates it. -/
theorem C9_expiry_invariant {α : Type} (s : CacheState α) :
    (∀ (k : String) (data : α) (ttl now : Int), 0 < ttl →
      (∀ q ∈ s.cache, q.2.timestamp < q.2.expiresAt) →
      ∀ q ∈ (PersistentCache.set k data ttl now s).cache,
        q.2.timestamp < q.2.expiresAt) ∧
    (∀ (now : Int) (entries : List (String × CacheEntry α)),
      s.file = some entries →
      (∀ q ∈ entries, q.2.timestamp < q.2.expiresAt) →
      (∀ q ∈ s.cache, q.2.timestamp < q.2.expiresAt) →
      ∀ q ∈ (PersistentCache.loadFromDisk now s).cache,
        q.2.timestamp < q.2.expiresAt) := by
  constructor
  · intro k data ttl now httl hinv q hq
    unfold PersistentCache.set at hq
    by_cases hb : s.enableCaching = false
    · rw [if_pos hb] at hq
      exact hinv q hq
    · rw [if_neg hb] at hq
      dsimp only at hq
      rcases mem_setKey hq with h | h
      · rw [h]
        dsimp only
        omega
      · exact hinv q h
  · intro now entries hfile hinv1 hinv2 q hq
    unfold PersistentCache.loadFromDisk at hq
    rw [hfile] at hq
    dsimp only at hq
    rcases mem_loadFold now entries s.cache q hq with h | h
    · exact hinv1 q h
    · exact hinv2 q h

theorem C9_expiry_invariant_witness :
    (100 : Int) < 60100 ∧
    List.lookup "k"
      (PersistentCache.set "k" (7 : Nat) 60000 100
        (⟨[], true, none⟩ : CacheState Nat)).cache = some ⟨7, 100, 60100⟩ :=
  ⟨(C9_expiry_invariant (⟨[], true, none⟩ : CacheState Nat)).1 "k" 7 60000 100
      (by decide) (fun q hq => absurd hq (List.not_mem_nil q))
      ("k", ⟨7, 100, 60100⟩) (by decide),
    by decide⟩

/-- C10: setting the caching toggle to disabled clears every in-memory entry
immediately and triggers an immediate save of the now-empty store, and that
save deletes the on-disk cache file — after the setter runs, the in-memory
map is empty, the file is gone, and caching is off, whatever the prior
state. -/
theorem C10_disable_caching_deletes_file {α : Type} (s : CacheState α) (now : Int) :
    (PersistentCache.setEnableCaching false now s).cache = [] ∧
    (PersistentCache.setEnableCaching false now s).file = none ∧
    (PersistentCache.setEnableCaching false now s).enableCaching = false := by
  unfold PersistentCache.setEnableCaching PersistentCache.clear PersistentCache.saveToDisk
  simp
